import Mathlib

/-!
Verification development for the adapter composition engine of
`adapter-hub/adapter-transformers`.

The definitions below are shallow embeddings of the Python sources under
`src/src/transformers/`:

* `adapters/lora.py` — the `LoRA` module (`com`/`com_inv`), the
  `LoRALayer` container and the `Linear`/`MergedLinear` injection points
  (`merge_lora`, `reset_lora`, `delete_adapter`, `forward`);
* `adapters/configuration.py` — the frozen `AdapterConfig` /
  `AdapterFusionConfig` attribute protocol and `ModelAdaptersConfig`
  (`add`, `add_fusion`, `get_fusion`);
* `adapter_heads.py` — `ModelWithFlexibleHeadsAdaptersMixin.forward_head`
  and `QuestionAnsweringHead.forward`.

Tensors are embedded as total functions `Fin m → Fin n → ℚ` (exact
arithmetic; floating point is out of scope).  Python exceptions are
embedded as `Except` errors; an `Except.error` result models an exception
raised before any state mutation, so the pre-call state is unchanged.
Python truthiness of the `self.merged` marker (`False`/`None`/`str`) is
embedded faithfully: `None` and `False` become `none`, a string `s`
becomes `some s`, and the boolean tests `if self.merged:` /
`if not self.merged:` test `pyTruthy`, which is false for the empty
string exactly as in Python.
-/

namespace AdapterTransformers

/-- Matrices over the rationals, indexed by row and column. -/
abbrev Mat (m n : Nat) := Fin m → Fin n → ℚ

/-- Errors raised by the embedded code.  `valueError` covers the generic
`ValueError`s of the sources; the spec's taxonomy names are used where the
message identifies them (`alreadyMerged`, `composition`, `unknownHead`). -/
inductive AdapterError where
  | valueError
  | alreadyMerged
  | composition
  | unknownHead
  | keyError
  deriving DecidableEq, Repr

/-- Composition modes of a LoRA module (`LoRAConfig.composition_mode`):
`"add"` or `"scale"`.  Any other string raises a `ValueError` in the
constructor, so the embedding uses a closed enumeration. -/
inductive Mode where
  | add
  | scale
  deriving DecidableEq, Repr

/-- Truthiness of the `self.merged` marker of `LoRALayer`: the marker is
`False` at construction, `None` after `reset_lora`, and an adapter name
(a string) after `merge_lora`.  Python's `if self.merged:` is false for
`False`, `None` and the empty string. -/
def pyTruthy : Option String → Bool
  | none => false
  | some s => s != ""

/-- Embeds the `LoRA` module of `adapters/lora.py` in the decomposed case
(`no_decomposition = False`, the path described by the spec's
`W + scaling·B·A` / `W * (scaling·B·A)` formulas), with dropout 0 (the
`config.dropout == 0.0` branch makes `lora_dropout` the identity).
`lora_A` has shape `(r, in_features)` and `lora_B` has shape
`(out_features, r)` (`Linear._get_lora_shapes`). -/
structure LoRA (inF outF : Nat) where
  r : Nat
  alpha : ℚ
  mode : Mode
  lora_A : Mat r inF
  lora_B : Mat outF r

namespace LoRA

variable {inF outF : Nat}

/-- Translates `self.scaling = self.lora_alpha / self.r`. -/
def scaling (l : LoRA inF outF) : ℚ := l.alpha / (l.r : ℚ)

/-- Translates `LoRA.com`: `weights + added * self.scaling` in `add` mode,
`weights * (added * self.scaling)` (elementwise) in `scale` mode. -/
def com (l : LoRA inF outF) (weights added : Mat m n) : Mat m n :=
  match l.mode with
  | .add => fun i j => weights i j + added i j * l.scaling
  | .scale => fun i j => weights i j * (added i j * l.scaling)

/-- Translates `LoRA.com_inv`: `weights - added * self.scaling` in `add`
mode, `weights / (added * self.scaling)` (elementwise) in `scale` mode.
Rational division by zero yields `0` (Python floats yield `inf`/`nan`);
either way a zero divisor does not invert the composition. -/
def com_inv (l : LoRA inF outF) (weights added : Mat m n) : Mat m n :=
  match l.mode with
  | .add => fun i j => weights i j - added i j * l.scaling
  | .scale => fun i j => weights i j / (added i j * l.scaling)

/-- Translates `delta_w = lora.lora_B @ lora.lora_A` (the
`fan_in_fan_out = False` case, where `T` is the identity; with
`fan_in_fan_out = True` the stored weight and the delta are both
transposed, which does not change the composition elementwise). -/
def deltaW (l : LoRA inF outF) : Mat outF inF :=
  fun i j => ∑ k, l.lora_B i k * l.lora_A k j

end LoRA

/-- State of a `Linear` LoRA injection point (`adapters/lora.py`,
class `Linear(LoRALayer, nn.Linear)`): the wrapped weight matrix
(`out_features × in_features`), the bias, the `self.loras` module dict
(an insertion-ordered association list) and the `self.merged` marker. -/
structure LinearState (inF outF : Nat) where
  weight : Mat outF inF
  bias : Fin outF → ℚ
  loras : List (String × LoRA inF outF)
  merged : Option String

namespace LinearState

variable {inF outF : Nat}

/-- Names present in the `self.loras` module dict (its key view). -/
def presentNames (st : LinearState inF outF) : List String :=
  st.loras.map Prod.fst

/-- Translates `LoRALayer.delete_adapter`: `if adapter_name in self.loras:
del self.loras[adapter_name]`.  Nothing else is touched: in particular the
`self.merged` marker and the wrapped weight are left as they are. -/
def deleteAdapter (st : LinearState inF outF) (adapterName : String) :
    LinearState inF outF :=
  { st with loras := st.loras.filter (fun p => p.1 != adapterName) }

/-- Translates `Linear.merge_lora`.  The branch structure follows the
source: a missing name is a silent no-op; `self.merged == name` returns
early; `not self.merged` (falsy marker) folds `com(W, ΔW)` into the weight
when `r > 0` and sets the marker; otherwise the `ValueError`
("LoRaLayer already has a merged LoRA module") is raised. -/
def mergeLora (st : LinearState inF outF) (name : String) :
    Except AdapterError (LinearState inF outF) :=
  match st.loras.lookup name with
  | none => .ok st
  | some lora =>
    if st.merged = some name then
      .ok st
    else if pyTruthy st.merged = false then
      if 0 < lora.r then
        .ok { st with weight := lora.com st.weight lora.deltaW, merged := some name }
      else
        .ok { st with merged := some name }
    else
      .error .alreadyMerged

/-- Translates `Linear.reset_lora`: `if self.merged:` guards the whole
body (so a falsy marker, including the empty string, is a no-op);
`self.loras[self.merged]` raises a `KeyError` when the merged name was
deleted from the dict; otherwise `com_inv(W, ΔW)` is applied when `r > 0`
and the marker is set to `None`. -/
def resetLora (st : LinearState inF outF) :
    Except AdapterError (LinearState inF outF) :=
  match st.merged with
  | none => .ok st
  | some m =>
    if m = "" then
      .ok st
    else
      match st.loras.lookup m with
      | none => .error .keyError
      | some lora =>
        if 0 < lora.r then
          .ok { st with weight := lora.com_inv st.weight lora.deltaW, merged := none }
        else
          .ok { st with merged := none }

end LinearState

/-- Modelled from the spec: `AdapterLayerBase.get_active_setup`
(`adapters/layer.py`, not under `src/`).  Per §4.3 of the spec, `forward`
"reads the Model-Wide Adapter Registry's active CompositionBlock
restricted to names present at this injection point; if none active,
returns the unmodified linear transform".  The active composition is a
flat (non-Fuse) block, embedded as a list of adapter names; the result is
that block restricted to the present names, or `none` when no composition
is active or the restriction is empty. -/
def getActiveSetup (active : Option (List String)) (present : List String) :
    Option (List String) :=
  match active with
  | none => none
  | some comp =>
    let restricted := comp.filter (fun n => present.contains n)
    if restricted.isEmpty then none else some restricted

/-- Translates `F.linear(x, W, bias)`: `x · Wᵀ + bias`, broadcasting the
bias over the batch dimension. -/
def flinear (x : Mat b n) (w : Mat m n) (bias : Fin m → ℚ) : Mat b m :=
  fun i j => (∑ k, x i k * w j k) + bias j

namespace LinearState

variable {inF outF : Nat}

/-- Translates `Linear.forward`.  With a falsy `self.merged` marker the
active setup is consulted: arity 1 applies the single adapter's low-rank
update via `com` (`delta_w = x @ lora_A.T @ lora_B.T`, dropout 0), any
larger arity raises the `ValueError` ("Invalid adapter setup") that the
spec calls `CompositionError`.  With a truthy marker, or no active setup,
the plain linear transform of the (possibly merged) weight is returned.
`getActiveSetup` is modelled from the spec (see its doc comment). -/
def forward (st : LinearState inF outF) (active : Option (List String))
    (x : Mat b inF) : Except AdapterError (Mat b outF) :=
  if pyTruthy st.merged = false then
    match getActiveSetup active st.presentNames with
    | some setup =>
      if setup.length = 1 then
        match st.loras.lookup (setup.headI) with
        | some lora =>
          let result := flinear x st.weight st.bias
          if 0 < lora.r then
            .ok (lora.com result (fun i j => ∑ k, (∑ t, x i t * lora.lora_A k t) * lora.lora_B j k))
          else
            .ok result
        | none => .error .keyError
      else
        .error .composition
    | none => .ok (flinear x st.weight st.bias)
  else
    .ok (flinear x st.weight st.bias)

end LinearState

/-- Embeds the `LoRA` module as configured by `MergedLinear.add_adapter`,
which additionally stores `enable_lora` (one flag per attention matrix
q/k/v).  The q/k/v-grouped delta (`F.conv1d` + `zero_pad`) is a tensor
kernel abstracted by the theorems below, which only concern the control
flow around it; `r`, the scaling, the mode and `enable_lora` are the
fields the control flow reads. -/
structure MLoRA where
  r : Nat
  alpha : ℚ
  mode : Mode
  enable_lora : List Bool
  deriving DecidableEq

/-- State of a `MergedLinear` LoRA injection point (grouped q/k/v
projection, `adapters/lora.py`). -/
structure MergedLinearState (inF outF : Nat) where
  weight : Mat outF inF
  bias : Fin outF → ℚ
  loras : List (String × MLoRA)
  merged : Option String

namespace MergedLinearState

variable {inF outF : Nat}

/-- Elementwise composition shared by `LoRA.com` for the grouped layer:
the same `add`/`scale` formulas applied to the zero-padded delta, which is
supplied abstractly by `delta`. -/
def comWith (mode : Mode) (scaling : ℚ) (weights added : Mat m n) : Mat m n :=
  match mode with
  | .add => fun i j => weights i j + added i j * scaling
  | .scale => fun i j => weights i j * (added i j * scaling)

/-- Translates `MergedLinear.merge_lora`: the branch structure is the one
of `Linear.merge_lora` with the extra guard `any(lora.enable_lora)` on the
weight update, and the grouped delta (the `F.conv1d`/`zero_pad` kernel)
passed in as `delta`. -/
def mergeLora (delta : MLoRA → Mat outF inF) (st : MergedLinearState inF outF)
    (name : String) : Except AdapterError (MergedLinearState inF outF) :=
  match st.loras.lookup name with
  | none => .ok st
  | some lora =>
    if st.merged = some name then
      .ok st
    else if pyTruthy st.merged = false then
      if 0 < lora.r ∧ lora.enable_lora.any id then
        .ok { st with
              weight := comWith lora.mode (lora.alpha / (lora.r : ℚ)) st.weight (delta lora),
              merged := some name }
      else
        .ok { st with merged := some name }
    else
      .error .alreadyMerged

/-- Translates `MergedLinear.forward`.  The gate structure is identical to
`Linear.forward`; the arity-1 low-rank update (`after_A`/`after_B`/
`zero_pad`) is a tensor kernel passed in abstractly as `applyLora`. -/
def forward (applyLora : MLoRA → Mat b outF → Mat b outF)
    (st : MergedLinearState inF outF) (active : Option (List String))
    (x : Mat b inF) : Except AdapterError (Mat b outF) :=
  if pyTruthy st.merged = false then
    match getActiveSetup active (st.loras.map Prod.fst) with
    | some setup =>
      if setup.length = 1 then
        match st.loras.lookup (setup.headI) with
        | some lora =>
          let result := flinear x st.weight st.bias
          if 0 < lora.r then
            .ok (applyLora lora result)
          else
            .ok result
        | none => .error .keyError
      else
        .error .composition
    | none => .ok (flinear x st.weight st.bias)
  else
    .ok (flinear x st.weight st.bias)

end MergedLinearState

/-! ## Configuration objects (`adapters/configuration.py`) -/

/-- Primitive Python values stored in configuration dictionaries. -/
inductive PyPrim where
  | pynone
  | bool (b : Bool)
  | int (n : ℤ)
  | str (s : String)
  | rat (q : ℚ)
  deriving DecidableEq, Repr

/-- Python values held by configuration attributes: a primitive, a list of
primitives (e.g. `leave_out`), or a string-keyed mapping of primitives
(e.g. a per-layer `reduction_factor` mapping or the legacy
`invertible_adapter` dict). -/
inductive PyVal where
  | prim (p : PyPrim)
  | list (l : List PyPrim)
  | dict (d : List (String × PyPrim))
  deriving DecidableEq, Repr

/-- Python truthiness of a `PyVal` (`if value:`). -/
def pyTruthyVal : PyVal → Bool
  | .prim .pynone => false
  | .prim (.bool b) => b
  | .prim (.int n) => n != 0
  | .prim (.str s) => s != ""
  | .prim (.rat q) => q != 0
  | .list l => !l.isEmpty
  | .dict d => !d.isEmpty

/-- Errors raised by the configuration code. -/
inductive ConfigError where
  | frozenInstance
  | keyError
  | typeError
  deriving DecidableEq, Repr

/-- Instance `__dict__` of a config object: an insertion-ordered
association list of attribute names and values. -/
abbrev AttrDict := List (String × PyVal)

/-- Translates `object.__setattr__`: store `value` under `name` in the
instance dict, replacing an existing binding in place and appending
otherwise. -/
def objectSetattr : AttrDict → String → PyVal → AttrDict
  | [], n, v => [(n, v)]
  | (k, w) :: rest, n, v =>
    if k = n then (k, v) :: rest else (k, w) :: objectSetattr rest n v

/-- Translates `AdapterConfig.__setattr__`: a name already in
`self.__dict__` raises `FrozenInstanceError`; the name
`invertible_adapter` (a v1 backwards-compatibility alias, never itself
stored) writes `inv_adapter` and `inv_adapter_reduction_factor` through
`object.__setattr__` when the value is truthy (subscripting a non-mapping
raises `TypeError`, a missing key raises `KeyError`; on the second missing
key Python has already written `inv_adapter`, a partial mutation the
`Except` result drops); any other unset name is stored. -/
def acSetattr (d : AttrDict) (name : String) (v : PyVal) :
    Except ConfigError AttrDict :=
  if (d.lookup name).isSome then
    .error .frozenInstance
  else if name = "invertible_adapter" then
    if pyTruthyVal v then
      match v with
      | .dict m =>
        match m.lookup "block_type" with
        | none => .error .keyError
        | some bt =>
          match m.lookup "reduction_factor" with
          | none => .error .keyError
          | some rf =>
            .ok (objectSetattr (objectSetattr d "inv_adapter" (.prim bt))
                  "inv_adapter_reduction_factor" (.prim rf))
      | _ => .error .typeError
    else
      .ok d
  else
    .ok (objectSetattr d name v)

/-- Translates `AdapterConfig.__delattr__`: always raises
`FrozenInstanceError`. -/
def acDelattr (_ : AttrDict) (_ : String) : Except ConfigError AttrDict :=
  .error .frozenInstance

/-- Translates `AdapterFusionConfig.__setattr__`: a name already in
`self.__dict__` raises `FrozenInstanceError`, any other name is stored
(no special-cased alias). -/
def afcSetattr (d : AttrDict) (name : String) (v : PyVal) :
    Except ConfigError AttrDict :=
  if (d.lookup name).isSome then
    .error .frozenInstance
  else
    .ok (objectSetattr d name v)

/-- Translates `AdapterFusionConfig.__delattr__`: always raises
`FrozenInstanceError`. -/
def afcDelattr (_ : AttrDict) (_ : String) : Except ConfigError AttrDict :=
  .error .frozenInstance

/-- Construction of a dataclass instance: the generated `__init__` assigns
every field in declaration order through the class's `__setattr__`. -/
def constructAC (fields : List (String × PyVal)) : Except ConfigError AttrDict :=
  fields.foldlM (fun d kv => acSetattr d kv.1 kv.2) []

/-- Field assignments performed by `PfeifferConfig()` (the
`ADAPTER_CONFIG_MAP["pfeiffer"]` instance), in dataclass field order with
the source's default values. -/
def pfeifferFields : List (String × PyVal) :=
  [("original_ln_before", .prim (.bool true)),
   ("original_ln_after", .prim (.bool true)),
   ("residual_before_ln", .prim (.bool true)),
   ("adapter_residual_before_ln", .prim (.bool false)),
   ("ln_before", .prim (.bool false)),
   ("ln_after", .prim (.bool false)),
   ("mh_adapter", .prim (.bool false)),
   ("output_adapter", .prim (.bool true)),
   ("non_linearity", .prim (.str "relu")),
   ("reduction_factor", .prim (.int 16)),
   ("inv_adapter", .prim .pynone),
   ("inv_adapter_reduction_factor", .prim .pynone),
   ("cross_adapter", .prim (.bool false)),
   ("leave_out", .list []),
   ("phm_layer", .prim (.bool false)),
   ("phm_dim", .prim .pynone),
   ("factorized_phm_W", .prim (.bool true)),
   ("shared_W_phm", .prim (.bool false)),
   ("shared_phm_rule", .prim (.bool true)),
   ("factorized_phm_rule", .prim (.bool false)),
   ("phm_c_init", .prim (.str "normal")),
   ("phm_init_range", .prim (.rat (1/10000))),
   ("learn_phm", .prim (.bool true)),
   ("hypercomplex_nonlinearity", .prim (.str "glorot-uniform"))]

/-- Instance dict of a constructed `PfeifferConfig()` (the result of
`constructAC pfeifferFields`, proved below). -/
def pfeifferDict : AttrDict := pfeifferFields

/-! ## The model-wide adapter registry (`ModelAdaptersConfig`) -/

/-- Anonymous (dict-valued) adapter configurations as supplied to
`ModelAdaptersConfig.add` / `add_fusion`. -/
abbrev ConfigDict := List (String × PyVal)

/-- Keys actually present in a configuration dict. -/
def configKeys (d : ConfigDict) : List String := d.map Prod.fst

/-- Canonicalized field order: the distinct keys of the dict, sorted. -/
def sortedConfigKeys (d : ConfigDict) : List String :=
  ((configKeys d).toFinset).sort (· ≤ ·)

/-- Modelled from the spec: `get_adapter_config_hash`
(`adapters/utils.py`, not under `src/`).  Per §4.2 of the spec, anonymous
configs "are content-hashed (stable hash over canonicalized field order)":
the hash key is determined exactly by the config's content, independent of
field order.  The embedding takes the canonical form itself as the key —
the key set sorted, each key paired with its looked-up value — which is
stable under reordering and collision-free, as the spec's stable content
hash is. -/
def getAdapterConfigHash (d : ConfigDict) : List (String × Option PyVal) :=
  (sortedConfigKeys d).map (fun k => (k, d.lookup k))

/-- Value of the string-keyed `self.adapters` / `self.fusions` maps: the
name of a preset from a global config map, or the content hash of an
anonymous dict config. -/
inductive ConfigName where
  | preset (s : String)
  | hashed (h : List (String × Option PyVal))
  deriving DecidableEq

/-- Keys of `ADAPTER_CONFIG_MAP` (`configuration.py`). -/
def adapterConfigMapKeys : List String :=
  ["pfeiffer", "houlsby", "pfeiffer+inv", "houlsby+inv"]

/-- Translates `DEFAULT_ADAPTER_CONFIG = "pfeiffer"`. -/
def DEFAULT_ADAPTER_CONFIG : String := "pfeiffer"

/-- Translates the fields of `StaticAdapterFusionConfig()` as a dict. -/
def staticFusionConfig : ConfigDict :=
  [("key", .prim (.bool true)), ("query", .prim (.bool true)),
   ("value", .prim (.bool false)), ("query_before_ln", .prim (.bool false)),
   ("regularization", .prim (.bool false)), ("residual_before", .prim (.bool false)),
   ("temperature", .prim (.bool false)), ("value_before_softmax", .prim (.bool true)),
   ("value_initialized", .prim (.bool false))]

/-- Translates the fields of `DynamicAdapterFusionConfig()` as a dict. -/
def dynamicFusionConfig : ConfigDict :=
  [("key", .prim (.bool true)), ("query", .prim (.bool true)),
   ("value", .prim (.bool true)), ("query_before_ln", .prim (.bool false)),
   ("regularization", .prim (.bool true)), ("residual_before", .prim (.bool false)),
   ("temperature", .prim (.bool false)), ("value_before_softmax", .prim (.bool true)),
   ("value_initialized", .prim (.bool true))]

/-- Translates `ADAPTERFUSION_CONFIG_MAP = {"static": ..., "dynamic": ...}`. -/
def adapterFusionConfigMap : List (String × ConfigDict) :=
  [("static", staticFusionConfig), ("dynamic", dynamicFusionConfig)]

/-- Translates `DEFAULT_ADAPTERFUSION_CONFIG = "dynamic"`. -/
def DEFAULT_ADAPTERFUSION_CONFIG : String := "dynamic"

/-- Configuration argument of `add` / `add_fusion`: a registered name
(string) or an anonymous dict; `None` is the absent `Option`. -/
inductive ConfigArg where
  | name (s : String)
  | dict (d : ConfigDict)

/-- State of `ModelAdaptersConfig`: `adapters` maps adapter name to config
name, `configMap` maps content hashes to anonymous config bodies (only
hashes enter it through `add`; preset names resolve through the global
map), and likewise for fusions. -/
structure ModelAdaptersConfig where
  adapters : List (String × ConfigName)
  configMap : List (List (String × Option PyVal) × ConfigDict)
  fusions : List (String × ConfigName)
  fusionConfigMap : List (List (String × Option PyVal) × ConfigDict)

/-- Empty registry (`ModelAdaptersConfig()` with no kwargs). -/
def ModelAdaptersConfig.empty : ModelAdaptersConfig :=
  { adapters := [], configMap := [], fusions := [], fusionConfigMap := [] }

namespace ModelAdaptersConfig

/-- Translates `ModelAdaptersConfig.add`: a duplicate adapter name raises
`ValueError`; `config=None` falls back to `DEFAULT_ADAPTER_CONFIG`; a
string must be a key of `ADAPTER_CONFIG_MAP` (the model's `config_map` is
keyed by content hashes only, so the source's second string-membership
test cannot fire here); a dict is content-hashed and entered into the
config map, and the adapter name is bound to the resulting config name.
Assignment into a Python dict overwrites, which lookup-first association
lists mirror by prepending. -/
def add (m : ModelAdaptersConfig) (adapterName : String)
    (config : Option ConfigArg) : Except AdapterError ModelAdaptersConfig :=
  if (m.adapters.lookup adapterName).isSome then
    .error .valueError
  else
    match config.getD (.name DEFAULT_ADAPTER_CONFIG) with
    | .name s =>
      if adapterConfigMapKeys.contains s then
        .ok { m with adapters := (adapterName, .preset s) :: m.adapters }
      else
        .error .valueError
    | .dict d =>
      let h := getAdapterConfigHash d
      .ok { m with
            adapters := (adapterName, .hashed h) :: m.adapters,
            configMap := (h, d) :: m.configMap }

/-- Fusion name argument of `add_fusion` / `get_fusion`: a ready-made
string or the list of constituent adapter names. -/
inductive FusionName where
  | str (s : String)
  | list (l : List String)

/-- Translates `if isinstance(fusion_name, list): fusion_name =
",".join(fusion_name)` — note: no sorting of the list. -/
def FusionName.key : FusionName → String
  | .str s => s
  | .list l => String.intercalate "," l

/-- Translates `ModelAdaptersConfig.add_fusion`: the key is the
comma-join of the names as supplied; a duplicate key raises `ValueError`;
`config=None` falls back to `DEFAULT_ADAPTERFUSION_CONFIG`; a string must
be a key of `ADAPTERFUSION_CONFIG_MAP`; a dict is content-hashed into the
fusion config map. -/
def addFusion (m : ModelAdaptersConfig) (fusionName : FusionName)
    (config : Option ConfigArg) : Except AdapterError ModelAdaptersConfig :=
  let fname := fusionName.key
  if (m.fusions.lookup fname).isSome then
    .error .valueError
  else
    match config.getD (.name DEFAULT_ADAPTERFUSION_CONFIG) with
    | .name s =>
      if (adapterFusionConfigMap.lookup s).isSome then
        .ok { m with fusions := (fname, .preset s) :: m.fusions }
      else
        .error .valueError
    | .dict d =>
      let h := getAdapterConfigHash d
      .ok { m with
            fusions := (fname, .hashed h) :: m.fusions,
            fusionConfigMap := (h, d) :: m.fusionConfigMap }

/-- Translates `ModelAdaptersConfig.get_fusion`: the key is the comma-join
of the names as supplied; an unknown key returns `None`; a known key
resolves its config name through the fusion config map (hashes) or the
global `ADAPTERFUSION_CONFIG_MAP` (presets). -/
def getFusion (m : ModelAdaptersConfig) (fusionName : FusionName) :
    Option ConfigDict :=
  match m.fusions.lookup fusionName.key with
  | none => none
  | some (.preset s) => adapterFusionConfigMap.lookup s
  | some (.hashed h) => m.fusionConfigMap.lookup h

end ModelAdaptersConfig

/-! ## Head dispatch (`adapter_heads.py`) -/

/-- Translates the name resolution of `forward_head`: `head_name =
head_name or self.active_head` (Python `or` keeps the argument only when
truthy), followed by `if not head_name:` — so a falsy resolved name
(absent or empty) means "no head resolves". -/
def resolveHead (headName activeHead : Option String) : Option String :=
  let h := if pyTruthy headName then headName else activeHead
  if pyTruthy h then h else none

/-- Translates `ModelWithFlexibleHeadsAdaptersMixin.forward_head`: when no
head name resolves, the input hidden states are returned unchanged; a
resolved name missing from `self.heads` raises the `ValueError`
("Unknown head_name") the spec calls `UnknownHeadError`; otherwise the
registered head's own forward (an external per-head computation, passed in
abstractly as `applyHead`) is applied. -/
def forwardHead (heads : List String) (activeHead headName : Option String)
    (allOutputs : α) (applyHead : String → α → α) : Except AdapterError α :=
  match resolveHead headName activeHead with
  | none => .ok allOutputs
  | some h =>
    if heads.contains h then
      .ok (applyHead h allOutputs)
    else
      .error .unknownHead

/-- Translates `start_positions.clamp_(0, ignored_index)` (`torch.clamp`
to the closed interval). -/
def clampPos (ignoredIndex : ℤ) (p : ℤ) : ℤ := max 0 (min p ignoredIndex)

/-- Translates the loss computation of `QuestionAnsweringHead.forward`
when both position labels are supplied (already squeezed to one
dimension).  `seqLen` is `start_logits.size(1)`; `ignored_index = seqLen`
is both the clamping bound and the `ignore_index` of the two
`CrossEntropyLoss(ignore_index=ignored_index)` terms, whose numeric
kernels (over the start and end logits respectively) are passed in
abstractly as `ceStart`/`ceEnd`; the result is their average.  With either
label absent the loss is `None`; no input ever raises. -/
def qaHeadLoss (seqLen : ℕ) (ceStart ceEnd : ℤ → ℚ)
    (startPositions endPositions : Option ℤ) : Option ℚ :=
  match startPositions, endPositions with
  | some sp, some ep =>
    let ignoredIndex : ℤ := (seqLen : ℤ)
    let sp' := clampPos ignoredIndex sp
    let ep' := clampPos ignoredIndex ep
    some ((ceStart sp' + ceEnd ep') / 2)
  | _, _ => none

/-! ## Helper lemmas -/

theorem lookup_isSome_iff_mem {β : Type} (l : List (String × β)) (a : String) :
    (l.lookup a).isSome ↔ a ∈ l.map Prod.fst := by
  induction l with
  | nil => simp
  | cons p t ih =>
    obtain ⟨k, v⟩ := p
    by_cases h : a = k
    · simp [List.lookup, h]
    · have hb : (a == k) = false := by simp [h]
      simp [List.lookup, hb, ih, h]

theorem lookup_map_pair {β : Type} (ks : List String) (f : String → β) (k : String) :
    (ks.map (fun x => (x, f x))).lookup k = if k ∈ ks then some (f k) else none := by
  induction ks with
  | nil => simp
  | cons x t ih =>
    by_cases h : k = x
    · simp [List.lookup, h]
    · have hb : (k == x) = false := by simp [h]
      simp [List.lookup, hb, ih, h]

/-! ## Claim C7: head fallback and unknown-head error -/

/-- C7: a `forward_head` call with no `head_name` argument and no active
head returns the input hidden states unchanged (a valid no-head outcome),
and any call whose resolved head name is missing from the head table
raises the unknown-head error. -/
theorem forwardHead_fallback_and_unknown {α : Type} (heads : List String)
    (activeHead headName : Option String) (x : α) (applyHead : String → α → α) :
    forwardHead heads none none x applyHead = .ok x
    ∧ (∀ h, resolveHead headName activeHead = some h → h ∉ heads →
        forwardHead heads activeHead headName x applyHead = .error .unknownHead) := by
  constructor
  · rfl
  · intro h hres hmem
    simp [forwardHead, hres, hmem]

theorem forwardHead_fallback_and_unknown_witness :
    forwardHead ["cls"] none none (0 : ℕ) (fun _ n => n) = .ok 0
    ∧ forwardHead ["cls"] none (some "qa") (0 : ℕ) (fun _ n => n)
        = .error .unknownHead :=
  ⟨(forwardHead_fallback_and_unknown ["cls"] none none 0 (fun _ n => n)).1,
   (forwardHead_fallback_and_unknown ["cls"] none (some "qa") 0 (fun _ n => n)).2
     "qa" rfl (by decide)⟩

/-! ## Claim C8: QA head label clamping -/

/-- C8: with both position labels supplied, `QuestionAnsweringHead.forward`
clamps the labels into `[0, seqLen]` before the loss terms, returns the
average of the start and end cross-entropy losses, and never rejects any
label value; a label beyond the sequence length is clamped to exactly
`seqLen`, the `ignore_index` passed to both loss terms. -/
theorem qaHeadLoss_clamps_and_averages (seqLen : ℕ) (ceStart ceEnd : ℤ → ℚ)
    (sp ep : ℤ) :
    qaHeadLoss seqLen ceStart ceEnd (some sp) (some ep)
      = some ((ceStart (clampPos (seqLen : ℤ) sp) + ceEnd (clampPos (seqLen : ℤ) ep)) / 2)
    ∧ ((seqLen : ℤ) < sp → clampPos (seqLen : ℤ) sp = (seqLen : ℤ))
    ∧ ((seqLen : ℤ) < ep → clampPos (seqLen : ℤ) ep = (seqLen : ℤ)) := by
  refine ⟨rfl, fun h => ?_, fun h => ?_⟩ <;>
    · simp only [clampPos]
      omega

theorem qaHeadLoss_clamps_and_averages_witness :
    qaHeadLoss 128 (fun _ => 0) (fun _ => 0) (some 200) (some 200) = some 0
    ∧ clampPos (128 : ℤ) 200 = 128 := by
  have h := qaHeadLoss_clamps_and_averages 128 (fun _ => 0) (fun _ => 0) 200 200
  refine ⟨?_, h.2.1 (by decide)⟩
  rw [h.1]
  norm_num

/-! ## Claim C1: merge/reset round-trip -/

/-- C1 (amended): for a rank-positive LoRA adapter with a non-empty name
at an unmerged `Linear` injection point, `merge_lora(name)` followed by
`reset_lora()` restores the wrapped weight matrix exactly (over exact
arithmetic) in `add` composition mode unconditionally, and in `scale`
composition mode provided every entry of the scaled delta
`ΔW·scaling` is nonzero (division cannot invert a multiplication by
zero). -/
theorem mergeLora_resetLora_roundtrip {inF outF : Nat}
    (st : LinearState inF outF) (name : String) (lora : LoRA inF outF)
    (hlook : st.loras.lookup name = some lora)
    (hname : name ≠ "")
    (hunmerged : pyTruthy st.merged = false)
    (hr : 0 < lora.r)
    (hscale : lora.mode = .scale → ∀ i j, lora.deltaW i j * lora.scaling ≠ 0) :
    ∃ st', st.mergeLora name = .ok st'
      ∧ ∃ st'', st'.resetLora = .ok st''
        ∧ st''.weight = st.weight ∧ st''.merged = none := by
  have hne : ¬(st.merged = some name) := by
    intro h
    rw [h] at hunmerged
    simp [pyTruthy] at hunmerged
    exact hname hunmerged
  refine ⟨{ st with
              weight := lora.com st.weight lora.deltaW,
              merged := some name }, ?_, ?_⟩
  · simp [LinearState.mergeLora, hlook, hne, hunmerged, hr]
  · refine ⟨{ st with
                weight := lora.com_inv (lora.com st.weight lora.deltaW) lora.deltaW,
                merged := none }, ?_, ?_, rfl⟩
    · simp [LinearState.resetLora, hname, hlook, hr]
    · funext i j
      cases hm : lora.mode with
      | add =>
        simp [LoRA.com, LoRA.com_inv, hm]
      | scale =>
        simp only [LoRA.com, LoRA.com_inv, hm]
        exact mul_div_cancel_right₀ _ (hscale hm i j)

/-- Rank-1 additive LoRA adapter with delta `B·A = 1` and scaling `1`. -/
def loraAddOne : LoRA 1 1 :=
  { r := 1, alpha := 1, mode := .add,
    lora_A := fun _ _ => 1, lora_B := fun _ _ => 1 }

/-- Rank-1 scale-mode LoRA adapter whose delta `B·A` is zero (e.g. the
default `init_weights="lora"` zero-initialization of `lora_B`). -/
def loraScaleZero : LoRA 1 1 :=
  { r := 1, alpha := 1, mode := .scale,
    lora_A := fun _ _ => 0, lora_B := fun _ _ => 0 }

/-- Unmerged injection point holding the scale-mode adapter `"s"`, with
original weight `1`. -/
def stScaleZero : LinearState 1 1 :=
  { weight := fun _ _ => 1, bias := fun _ => 0,
    loras := [("s", loraScaleZero)], merged := none }

/-- Unmerged injection point holding the additive adapter `"a"`, with
original weight `1`. -/
def stAddA : LinearState 1 1 :=
  { weight := fun _ _ => 1, bias := fun _ => 0,
    loras := [("a", loraAddOne)], merged := none }

theorem mergeLora_resetLora_roundtrip_witness :
    ∃ st', stAddA.mergeLora "a" = .ok st'
      ∧ ∃ st'', st'.resetLora = .ok st''
        ∧ st''.weight = stAddA.weight ∧ st''.merged = none :=
  mergeLora_resetLora_roundtrip stAddA "a" loraAddOne
    rfl (by decide) rfl (by decide) (fun hm => by simp [loraAddOne] at hm)

/-- C1 (counterexample): the claim fails as stated.  For the rank-1
scale-mode adapter `"s"` whose delta `B·A` is zero (the default
`init_weights="lora"` zero-initialization of `lora_B`), `merge_lora("s")`
folds `W * (scaling·B·A) = 0` into the weight and `reset_lora()` divides
by the same zero delta, yielding weight `0` (in floats, `0/0 = NaN`)
instead of the original `1` — so the scale-mode round-trip is not an
identity on the weight matrix. -/
theorem mergeLora_resetLora_not_roundtrip :
    ((stScaleZero.mergeLora "s").bind LinearState.resetLora).map
        (fun st => st.weight 0 0) = .ok 0
    ∧ stScaleZero.weight 0 0 = 1
    ∧ 0 < loraScaleZero.r := by
  refine ⟨?_, rfl, by decide⟩
  simp [stScaleZero, loraScaleZero, LinearState.mergeLora, LinearState.resetLora,
    List.lookup, pyTruthy, LoRA.com, LoRA.com_inv, LoRA.deltaW, LoRA.scaling,
    Except.bind, Except.map]

/-! ## Claim C3: deleting a merged adapter -/

/-- C3 (code behaviour at the failing input): `delete_adapter` does NOT
unmerge a currently merged adapter.  After `merge_lora("a")` (weight
`1 ↦ 2`) and `delete_adapter("a")`, the wrapped weight is still the merged
value `2`, the merged-state marker still names the deleted adapter, and a
subsequent `reset_lora()` raises `KeyError` (`self.loras[self.merged]` on
a deleted name) — so the base weight is left permanently altered,
contradicting the spec's "deletion always unmerges first". -/
theorem deleteAdapter_leaves_weight_merged :
    stAddA.weight 0 0 = 1
    ∧ (stAddA.mergeLora "a").map (fun s => s.weight 0 0) = .ok 2
    ∧ (stAddA.mergeLora "a").map
        (fun s => (s.deleteAdapter "a").weight 0 0) = .ok 2
    ∧ (stAddA.mergeLora "a").map
        (fun s => (s.deleteAdapter "a").merged) = .ok (some "a")
    ∧ (stAddA.mergeLora "a").map
        (fun s => (s.deleteAdapter "a").resetLora) = .ok (.error .keyError) := by
  refine ⟨rfl, ?_, ?_, ?_, ?_⟩ <;>
    simp [stAddA, loraAddOne, LinearState.mergeLora, LinearState.resetLora,
      LinearState.deleteAdapter, List.lookup, pyTruthy, LoRA.com, LoRA.deltaW,
      LoRA.scaling, Except.map, List.filter] <;>
    norm_num

/-! ## Claim C4: merging while another adapter is merged -/

/-- C4: at an injection point whose merged marker holds a
non-empty adapter name `a`, calling `merge_lora` with a different present
name `b` raises `AlreadyMergedError`, for both `Linear` and
`MergedLinear`; and while such a marker is set, any `merge_lora` call that
returns normally leaves the whole state (in particular the base weight)
unchanged — an actual merge only succeeds when no adapter is merged.  The
non-emptiness hypothesis on the merged name reflects the program's state
space: `self.loras` is an `nn.ModuleDict` (lora.py:82), which rejects the
empty string as a key, so every reachable merged marker holds a non-empty
name and is truthy. -/
theorem mergeLora_alreadyMerged {inF outF : Nat}
    (st : LinearState inF outF) (mst : MergedLinearState inF outF)
    (delta : MLoRA → Mat outF inF) (a b : String)
    (lb : LoRA inF outF) (mlb : MLoRA)
    (hm1 : st.merged = some a) (hm2 : mst.merged = some a)
    (ha : a ≠ "") (hab : b ≠ a)
    (hlb : st.loras.lookup b = some lb)
    (hmlb : mst.loras.lookup b = some mlb) :
    st.mergeLora b = .error .alreadyMerged
    ∧ MergedLinearState.mergeLora delta mst b = .error .alreadyMerged
    ∧ (∀ c st2, st.mergeLora c = .ok st2 → st2 = st)
    ∧ (∀ c mst2, MergedLinearState.mergeLora delta mst c = .ok mst2 → mst2 = mst) := by
  have htr : pyTruthy (some a) = true := by simp [pyTruthy, ha]
  have hba : ¬(a = b) := fun h => hab h.symm
  refine ⟨?_, ?_, ?_, ?_⟩
  · simp [LinearState.mergeLora, hlb, hm1, hba, htr]
  · simp [MergedLinearState.mergeLora, hmlb, hm2, hba, htr]
  · intro c st2 hok
    unfold LinearState.mergeLora at hok
    cases hc : st.loras.lookup c with
    | none => rw [hc] at hok; exact (Except.ok.inj hok).symm
    | some lc =>
      rw [hc] at hok
      by_cases hceq : st.merged = some c
      · simp [hceq] at hok; exact hok.symm
      · simp [hceq, hm1, htr] at hok
        split at hok
        · exact (Except.ok.inj hok).symm
        · exact Except.noConfusion hok
  · intro c mst2 hok
    unfold MergedLinearState.mergeLora at hok
    cases hc : mst.loras.lookup c with
    | none => rw [hc] at hok; exact (Except.ok.inj hok).symm
    | some lc =>
      rw [hc] at hok
      by_cases hceq : mst.merged = some c
      · simp [hceq] at hok; exact hok.symm
      · simp [hceq, hm2, htr] at hok
        split at hok
        · exact (Except.ok.inj hok).symm
        · exact Except.noConfusion hok

/-- Merged-linear counterpart of `stAddA`, with adapter `"a"` merged. -/
def mstMergedA : MergedLinearState 1 1 :=
  { weight := fun _ _ => 2, bias := fun _ => 0,
    loras := [("a", { r := 1, alpha := 1, mode := .add, enable_lora := [true] }),
              ("b", { r := 1, alpha := 1, mode := .add, enable_lora := [true] })],
    merged := some "a" }

/-- Linear injection point with adapters `"a"` (merged) and `"b"`. -/
def stMergedA : LinearState 1 1 :=
  { weight := fun _ _ => 2, bias := fun _ => 0,
    loras := [("a", loraAddOne), ("b", loraAddOne)], merged := some "a" }

theorem mergeLora_alreadyMerged_witness :
    stMergedA.mergeLora "b" = .error .alreadyMerged
    ∧ MergedLinearState.mergeLora (fun _ => fun _ _ => 1) mstMergedA "b"
        = .error .alreadyMerged :=
  have h := mergeLora_alreadyMerged stMergedA mstMergedA (fun _ => fun _ _ => 1)
    "a" "b" loraAddOne { r := 1, alpha := 1, mode := .add, enable_lora := [true] }
    rfl rfl (by decide) (by decide) rfl rfl
  ⟨h.1, h.2.1⟩

/-! ## Claim C10: forward while merged -/

/-- C10: while some adapter is merged into the base weight (merged marker
set), `forward` on a `Linear` or `MergedLinear` injection point returns
exactly the plain linear transform `F.linear(x, W, bias)` of the
already-merged weight, never consults the active composition, and can
raise no error.  The non-emptiness hypothesis on the merged name reflects
the program's state space: `self.loras` is an `nn.ModuleDict`
(lora.py:82), which rejects the empty string as a key, so every reachable
merged marker holds a non-empty name and is truthy. -/
theorem forward_merged_plain_linear {inF outF b : Nat}
    (st : LinearState inF outF) (mst : MergedLinearState inF outF)
    (applyLora : MLoRA → Mat b outF → Mat b outF)
    (active : Option (List String)) (x : Mat b inF) (n : String)
    (h1 : st.merged = some n) (h2 : mst.merged = some n) (hn : n ≠ "") :
    st.forward active x = .ok (flinear x st.weight st.bias)
    ∧ MergedLinearState.forward applyLora mst active x
        = .ok (flinear x mst.weight mst.bias) := by
  have htr : pyTruthy st.merged = true := by simp [h1, pyTruthy, hn]
  have htr2 : pyTruthy mst.merged = true := by simp [h2, pyTruthy, hn]
  constructor
  · simp [LinearState.forward, htr]
  · simp [MergedLinearState.forward, htr2]

/-- Constant all-ones input batch of shape `1 × 1`. -/
def onesInput : Mat 1 1 := fun _ _ => 1

theorem forward_merged_plain_linear_witness :
    stMergedA.forward (some ["a", "b"]) onesInput
      = .ok (flinear onesInput stMergedA.weight stMergedA.bias)
    ∧ MergedLinearState.forward (fun _ r => r) mstMergedA (some ["a", "b"])
        onesInput
      = .ok (flinear onesInput mstMergedA.weight mstMergedA.bias) :=
  forward_merged_plain_linear stMergedA mstMergedA (fun _ r => r)
    (some ["a", "b"]) onesInput "a" rfl rfl (by decide)

/-! ## Claim C2: arity invariant at forward time -/

theorem getActiveSetup_mem_present {active : Option (List String)}
    {present setup : List String} (h : getActiveSetup active present = some setup) :
    ∀ n ∈ setup, n ∈ present := by
  cases active with
  | none => simp [getActiveSetup] at h
  | some comp =>
    simp only [getActiveSetup] at h
    split at h
    · exact absurd h (by simp)
    · obtain rfl := Option.some.inj h
      intro n hn
      have := (List.mem_filter.mp hn).2
      simpa using this

/-- C2: a forward call on an unmerged `Linear` LoRA injection point whose
active composition, restricted to the adapters present at that point,
contains more than one name raises `CompositionError`; when the restricted
composition contains exactly one name the call returns normally and never
raises.  (`getActiveSetup` is modelled from the spec; the restriction is
its result.) -/
theorem lora_forward_arity {inF outF b : Nat}
    (st : LinearState inF outF) (active : Option (List String))
    (x : Mat b inF) (setup : List String)
    (hunmerged : pyTruthy st.merged = false)
    (hsetup : getActiveSetup active st.presentNames = some setup) :
    (1 < setup.length → st.forward active x = .error .composition)
    ∧ (setup.length = 1 → ∃ y, st.forward active x = .ok y) := by
  constructor
  · intro hlen
    have hne : ¬(setup.length = 1) := by omega
    simp [LinearState.forward, hunmerged, hsetup, hne]
  · intro hlen
    obtain ⟨n, rfl⟩ := List.length_eq_one.mp hlen
    have hmem : n ∈ st.presentNames :=
      getActiveSetup_mem_present hsetup n (by simp)
    have hsome : (st.loras.lookup n).isSome := by
      rw [lookup_isSome_iff_mem]
      exact hmem
    obtain ⟨lora, hlora⟩ := Option.isSome_iff_exists.mp hsome
    by_cases hr : 0 < lora.r
    · exact ⟨lora.com (flinear x st.weight st.bias)
          (fun i j => ∑ k, (∑ t, x i t * lora.lora_A k t) * lora.lora_B j k),
        by simp [LinearState.forward, hunmerged, hsetup, List.headI, hlora, hr]⟩
    · exact ⟨flinear x st.weight st.bias,
        by simp [LinearState.forward, hunmerged, hsetup, List.headI, hlora, hr]⟩

/-- Unmerged injection point holding adapters `"a"` and `"b"`. -/
def stTwoAdapters : LinearState 1 1 :=
  { weight := fun _ _ => 1, bias := fun _ => 0,
    loras := [("a", loraAddOne), ("b", loraAddOne)], merged := none }

theorem lora_forward_arity_witness :
    stTwoAdapters.forward (some ["a", "b"]) onesInput = .error .composition
    ∧ ∃ y, stAddA.forward (some ["a", "b"]) onesInput = .ok y :=
  ⟨(lora_forward_arity stTwoAdapters (some ["a", "b"]) onesInput ["a", "b"]
      rfl rfl).1 (by decide),
   (lora_forward_arity stAddA (some ["a", "b"]) onesInput ["a"]
      rfl (by decide)).2 rfl⟩

/-! ## Claim C5: write-once configuration fields -/

/-- Legacy `invertible_adapter` value used by the counterexample. -/
def invAliasVal : PyVal :=
  .dict [("block_type", .str "nice"), ("reduction_factor", .int 2)]

/-- C5 (amended): on both `AdapterConfig` and `AdapterFusionConfig`, any
assignment to an attribute name already stored in the instance dict raises
`FrozenInstanceError`, and any attribute deletion raises
`FrozenInstanceError`.  However the fields of a constructed
`AdapterConfig` are not thereby unchangeable: the backwards-compatibility
name `invertible_adapter` is never stored, and assigning to it overwrites
the already-set fields `inv_adapter` and `inv_adapter_reduction_factor`
through `object.__setattr__` without raising (shown on the constructed
`PfeifferConfig()` instance). -/
theorem config_write_once_amended (d : AttrDict) (n : String) (v : PyVal)
    (hset : (d.lookup n).isSome) :
    acSetattr d n v = .error .frozenInstance
    ∧ afcSetattr d n v = .error .frozenInstance
    ∧ acDelattr d n = .error .frozenInstance
    ∧ afcDelattr d n = .error .frozenInstance
    ∧ constructAC pfeifferFields = .ok pfeifferDict
    ∧ (acSetattr pfeifferDict "invertible_adapter" invAliasVal).map
        (fun d' => (d'.lookup "inv_adapter",
                    d'.lookup "inv_adapter_reduction_factor"))
      = .ok (some (.prim (.str "nice")), some (.prim (.int 2))) := by
  refine ⟨?_, ?_, rfl, rfl, by rfl, by rfl⟩
  · simp [acSetattr, hset]
  · simp [afcSetattr, hset]

theorem config_write_once_amended_witness :
    acSetattr pfeifferDict "non_linearity" (.prim (.str "gelu"))
      = .error .frozenInstance
    ∧ afcSetattr [("key", .prim (.bool true))] "key" (.prim (.bool false))
      = .error .frozenInstance :=
  ⟨(config_write_once_amended pfeifferDict "non_linearity"
      (.prim (.str "gelu")) (by rfl)).1,
   (config_write_once_amended [("key", .prim (.bool true))] "key"
      (.prim (.bool false)) (by rfl)).2.1⟩

/-- C5 (counterexample): a field value of a constructed `AdapterConfig`
CAN change.  On the constructed `PfeifferConfig()` instance, where
`inv_adapter` is already set (to `None`), the assignment
`config.invertible_adapter = {"block_type": "nice", "reduction_factor": 2}`
raises nothing and rewrites `inv_adapter` to `"nice"` — refuting "no field
value of a constructed config can ever change". -/
theorem config_field_changes_counterexample :
    pfeifferDict.lookup "inv_adapter" = some (.prim .pynone)
    ∧ (acSetattr pfeifferDict "invertible_adapter" invAliasVal).map
        (fun d' => d'.lookup "inv_adapter")
      = .ok (some (.prim (.str "nice")))
    ∧ (acSetattr pfeifferDict "invertible_adapter" invAliasVal).map
        (fun d' => (acSetattr d' "invertible_adapter" invAliasVal).isOk)
      = .ok true := by
  exact ⟨rfl, rfl, rfl⟩

/-! ## Claim C9: fusion registry keys -/

/-- C9 (amended): a fusion added via a list of constituent adapter names
is stored under the comma-join of the names in the order supplied (no
sorting), and retrieval succeeds exactly for that same joined key: looking
the fusion up by the same list (or the equal joined string) returns its
configuration. -/
theorem lookup_cons_self {β : Type} (k : String) (v : β)
    (rest : List (String × β)) : ((k, v) :: rest).lookup k = some v := by
  simp [List.lookup]

theorem addFusion_key_is_supplied_order (m : ModelAdaptersConfig)
    (names : List String) (cfg : Option ConfigArg)
    (m' : ModelAdaptersConfig)
    (hadd : m.addFusion (.list names) cfg = .ok m') :
    (m'.fusions.lookup (String.intercalate "," names)).isSome
    ∧ (m'.getFusion (.list names)).isSome
    ∧ m'.getFusion (.list names)
        = m'.getFusion (.str (String.intercalate "," names)) := by
  have hkey : (ModelAdaptersConfig.FusionName.list names).key
      = String.intercalate "," names := rfl
  refine ⟨?_, ?_, rfl⟩ <;>
  · unfold ModelAdaptersConfig.addFusion at hadd
    simp only [hkey] at hadd ⊢
    split at hadd
    · exact Except.noConfusion hadd
    · cases hc : cfg.getD (.name DEFAULT_ADAPTERFUSION_CONFIG) with
      | name s =>
        rw [hc] at hadd
        by_cases hs : (adapterFusionConfigMap.lookup s).isSome
        · simp only [hs, if_true] at hadd
          obtain rfl := Except.ok.inj hadd
          simp [ModelAdaptersConfig.getFusion, ModelAdaptersConfig.FusionName.key,
            lookup_cons_self, hs]
        · simp only [hs, if_false] at hadd
          exact Except.noConfusion hadd
      | dict d =>
        rw [hc] at hadd
        obtain rfl := Except.ok.inj hadd
        simp [ModelAdaptersConfig.getFusion, ModelAdaptersConfig.FusionName.key,
          lookup_cons_self]

theorem addFusion_key_is_supplied_order_witness :
    ∃ m', ModelAdaptersConfig.empty.addFusion (.list ["b", "a"]) none = .ok m'
      ∧ (m'.fusions.lookup "b,a").isSome
      ∧ (m'.getFusion (.list ["b", "a"])).isSome := by
  refine ⟨_, rfl, ?_, ?_⟩
  · exact (addFusion_key_is_supplied_order ModelAdaptersConfig.empty
      ["b", "a"] none _ rfl).1
  · exact (addFusion_key_is_supplied_order ModelAdaptersConfig.empty
      ["b", "a"] none _ rfl).2.1

/-- C9 (counterexample): the claim fails as stated.  `add_fusion` does not
sort the constituent names: adding the fusion for `["b", "a"]` stores it
under the key `"b,a"`, and looking it up by the sorted, comma-joined tuple
`["a", "b"]` (key `"a,b"`) fails (returns `None`), while the unsorted
supplied order succeeds. -/
theorem addFusion_sorted_lookup_fails :
    (ModelAdaptersConfig.empty.addFusion (.list ["b", "a"]) none).map
        (fun m' => (m'.getFusion (.list ["a", "b"]),
                    m'.getFusion (.list ["b", "a"])))
      = .ok (none, some dynamicFusionConfig) := by
  rfl

/-! ## Claim C6: content-hashed anonymous configs -/

theorem lookup_cons_self_beq {α β : Type} [BEq α] [LawfulBEq α] (k : α) (v : β)
    (rest : List (α × β)) : ((k, v) :: rest).lookup k = some v := by
  simp [List.lookup]

theorem lookup_cons_ne {β : Type} {k k' : String} (v : β)
    (rest : List (String × β)) (h : k ≠ k') :
    ((k', v) :: rest).lookup k = rest.lookup k := by
  have hb : (k == k') = false := by simp [h]
  simp [List.lookup, hb]

theorem mem_sortedConfigKeys {d : ConfigDict} {k : String} :
    k ∈ sortedConfigKeys d ↔ (d.lookup k).isSome := by
  rw [sortedConfigKeys, Finset.mem_sort, List.mem_toFinset, configKeys,
    lookup_isSome_iff_mem]

theorem getAdapterConfigHash_congr {d1 d2 : ConfigDict}
    (h : ∀ k, d1.lookup k = d2.lookup k) :
    getAdapterConfigHash d1 = getAdapterConfigHash d2 := by
  have hf : (configKeys d1).toFinset = (configKeys d2).toFinset := by
    ext a
    rw [List.mem_toFinset, List.mem_toFinset, configKeys, configKeys,
      ← lookup_isSome_iff_mem, ← lookup_isSome_iff_mem, h a]
  have hfun : (fun k => (k, d1.lookup k)) = (fun k => (k, d2.lookup k)) :=
    funext fun k => by rw [h k]
  rw [getAdapterConfigHash, getAdapterConfigHash, sortedConfigKeys,
    sortedConfigKeys, hf, hfun]

theorem lookup_eq_of_getAdapterConfigHash_eq {d1 d2 : ConfigDict}
    (h : getAdapterConfigHash d1 = getAdapterConfigHash d2) (k : String) :
    d1.lookup k = d2.lookup k := by
  have h1 := congrArg (List.lookup k) h
  rw [getAdapterConfigHash, getAdapterConfigHash, lookup_map_pair,
    lookup_map_pair] at h1
  by_cases hk1 : (d1.lookup k).isSome = true <;>
    by_cases hk2 : (d2.lookup k).isSome = true
  · rw [if_pos (mem_sortedConfigKeys.mpr hk1),
      if_pos (mem_sortedConfigKeys.mpr hk2)] at h1
    exact Option.some.inj h1
  · rw [if_pos (mem_sortedConfigKeys.mpr hk1),
      if_neg (fun hm => hk2 (mem_sortedConfigKeys.mp hm))] at h1
    exact Option.noConfusion h1
  · rw [if_neg (fun hm => hk1 (mem_sortedConfigKeys.mp hm)),
      if_pos (mem_sortedConfigKeys.mpr hk2)] at h1
    exact Option.noConfusion h1
  · rw [Option.not_isSome_iff_eq_none.mp hk1, Option.not_isSome_iff_eq_none.mp hk2]

/-- C6: two structurally identical anonymous (dict-valued) adapter configs
added under distinct fresh names via `ModelAdaptersConfig.add` bind both
names to the same config-map key (the content hash of their shared
content), with that key present in the config map; while two anonymous
configs whose content differs at some field bind the two names to distinct
config-map keys.  (`get_adapter_config_hash` is modelled from the spec.) -/
theorem anon_configs_share_entry (m : ModelAdaptersConfig) (n1 n2 : String)
    (d1 d2 : ConfigDict) (h12 : n1 ≠ n2)
    (h1 : m.adapters.lookup n1 = none) (h2 : m.adapters.lookup n2 = none) :
    ((∀ k, d1.lookup k = d2.lookup k) →
      ∃ m1 m2, m.add n1 (some (.dict d1)) = .ok m1
        ∧ m1.add n2 (some (.dict d2)) = .ok m2
        ∧ m2.adapters.lookup n1 = some (.hashed (getAdapterConfigHash d1))
        ∧ m2.adapters.lookup n2 = some (.hashed (getAdapterConfigHash d1))
        ∧ (m2.configMap.lookup (getAdapterConfigHash d1)).isSome)
    ∧ ((∃ k, d1.lookup k ≠ d2.lookup k) →
      ∃ m1 m2, m.add n1 (some (.dict d1)) = .ok m1
        ∧ m1.add n2 (some (.dict d2)) = .ok m2
        ∧ m2.adapters.lookup n1 = some (.hashed (getAdapterConfigHash d1))
        ∧ m2.adapters.lookup n2 = some (.hashed (getAdapterConfigHash d2))
        ∧ getAdapterConfigHash d1 ≠ getAdapterConfigHash d2) := by
  have hs1 : (m.adapters.lookup n1).isSome = false := by simp [h1]
  have hlk2 : ((n1, ConfigName.hashed (getAdapterConfigHash d1)) :: m.adapters).lookup n2
      = none := by rw [lookup_cons_ne _ _ (Ne.symm h12)]; exact h2
  have hs2 : (((n1, ConfigName.hashed (getAdapterConfigHash d1)) :: m.adapters).lookup
      n2).isSome = false := by simp [hlk2]
  have hadd1 : m.add n1 (some (.dict d1)) = .ok
      { m with adapters := (n1, .hashed (getAdapterConfigHash d1)) :: m.adapters,
               configMap := (getAdapterConfigHash d1, d1) :: m.configMap } := by
    simp [ModelAdaptersConfig.add, hs1]
  have hadd2 : ({ m with
        adapters := (n1, .hashed (getAdapterConfigHash d1)) :: m.adapters,
        configMap := (getAdapterConfigHash d1, d1) :: m.configMap }
      : ModelAdaptersConfig).add n2 (some (.dict d2)) = .ok
      { m with
        adapters := (n2, .hashed (getAdapterConfigHash d2))
          :: (n1, .hashed (getAdapterConfigHash d1)) :: m.adapters,
        configMap := (getAdapterConfigHash d2, d2)
          :: (getAdapterConfigHash d1, d1) :: m.configMap } := by
    simp [ModelAdaptersConfig.add, hs2]
  constructor
  · intro heq
    have hh : getAdapterConfigHash d2 = getAdapterConfigHash d1 :=
      (getAdapterConfigHash_congr heq).symm
    refine ⟨_, _, hadd1, hadd2, ?_, ?_, ?_⟩
    · rw [lookup_cons_ne _ _ h12, lookup_cons_self]
    · rw [lookup_cons_self_beq, hh]
    · rw [← hh, lookup_cons_self_beq]
      rfl
  · intro ⟨k, hk⟩
    refine ⟨_, _, hadd1, hadd2, ?_, ?_, ?_⟩
    · rw [lookup_cons_ne _ _ h12, lookup_cons_self]
    · rw [lookup_cons_self_beq]
    · exact fun h => hk (lookup_eq_of_getAdapterConfigHash_eq h k)

theorem anon_configs_share_entry_witness :
    (∃ m1 m2,
      ModelAdaptersConfig.empty.add "x"
          (some (.dict [("rank", .prim (.int 8))])) = .ok m1
        ∧ m1.add "y" (some (.dict [("rank", .prim (.int 8))])) = .ok m2
        ∧ m2.adapters.lookup "x"
            = some (.hashed (getAdapterConfigHash [("rank", .prim (.int 8))]))
        ∧ m2.adapters.lookup "y"
            = some (.hashed (getAdapterConfigHash [("rank", .prim (.int 8))]))
        ∧ (m2.configMap.lookup
            (getAdapterConfigHash [("rank", .prim (.int 8))])).isSome)
    ∧ (∃ m1 m2,
      ModelAdaptersConfig.empty.add "x"
          (some (.dict [("rank", .prim (.int 8))])) = .ok m1
        ∧ m1.add "y" (some (.dict [("rank", .prim (.int 4))])) = .ok m2
        ∧ m2.adapters.lookup "x"
            = some (.hashed (getAdapterConfigHash [("rank", .prim (.int 8))]))
        ∧ m2.adapters.lookup "y"
            = some (.hashed (getAdapterConfigHash [("rank", .prim (.int 4))]))
        ∧ getAdapterConfigHash [("rank", .prim (.int 8))]
            ≠ getAdapterConfigHash [("rank", .prim (.int 4))]) :=
  ⟨(anon_configs_share_entry ModelAdaptersConfig.empty "x" "y"
      [("rank", .prim (.int 8))] [("rank", .prim (.int 8))]
      (by decide) rfl rfl).1 (fun _ => rfl),
   (anon_configs_share_entry ModelAdaptersConfig.empty "x" "y"
      [("rank", .prim (.int 8))] [("rank", .prim (.int 4))]
      (by decide) rfl rfl).2 ⟨"rank", by simp⟩⟩

end AdapterTransformers
